import Mathlib

/-!
Shallow embedding of the boardgame engine sources: the game-definition
normalizer and move dispatcher (src/core/game.js) and the multiplayer
socket middleware (src/client/multiplayer/multiplayer.js).

Modelling conventions: a JavaScript object field that may be absent is an
`Option`; in-place mutation of an argument is modelled by explicit state
passing (a function returns the post-call state of the mutated object);
a JavaScript runtime exception is modelled with `Except.error`.
-/

namespace Boardgame

/-- JavaScript values as far as the engine observes them: the game payload
`G` is opaque to the engine and is only passed through or returned. -/
inductive JsVal where
  | null : JsVal
  | bool : Bool → JsVal
  | num : Int → JsVal
  | str : String → JsVal
  | arr : List JsVal → JsVal
  | obj : List (String × JsVal) → JsVal

/-- A JavaScript runtime exception; here only the TypeError raised by
reading a property of `undefined`. -/
inductive JsError where
  | typeError : String → JsError

/-- The engine-owned context object, with the fields of the repository's
`Ctx` declaration that the embedded code reads or writes. -/
structure Ctx where
  numPlayers : Nat
  playOrder : List String
  playOrderPos : Nat
  currentPlayer : String
  turn : Nat
  phase : String
  playerID : Option String

/-- A move implementation: a function `(G, ctx, ...args) => G`. -/
abbrev MoveFn : Type := JsVal → Ctx → List JsVal → JsVal

/-- A long-form move record.  The repository's type declarations
(`LongFormMove`) give it a `move` field; `processMove` in game.js reads an
`impl` field, so the record is modelled with both fields optional. -/
structure MoveRecord where
  move : Option MoveFn
  impl : Option MoveFn
  redact : Option Bool
  client : Option Bool
  undoable : Option Bool

/-- An entry of a move table: a plain function or a long-form record. -/
inductive MoveEntry where
  | fn : MoveFn → MoveEntry
  | record : MoveRecord → MoveEntry

/-- A plugin as consulted by game.js: only the optional `fnWrap` hook is
read by the embedded code. -/
structure Plugin where
  fnWrap : Option (MoveFn → MoveFn)

/-- A flow-engine object as game.js consults it: definedness of
`processGameEvent` (the marker game.js checks before building a flow of
its own) and the `moveMap` keyed by strings of the form `phase.move`.
The flow engine itself (src/core/flow.js) is not among the sources. -/
structure Flow where
  processGameEvent : Option Unit
  moveMap : List (String × MoveEntry)

/-- A phase configuration, as far as game.js reads it
(`game.phases[ctx.phase].moves`). -/
structure PhaseConfig where
  moves : Option (List (String × MoveEntry))

/-- An action object: `type` names a move (for the dispatcher) or an action
kind such as MAKE_MOVE (for the middleware); the underscore fields are the
tags the multiplayer middleware attaches before emitting. -/
structure MAction where
  type : String
  args : List JsVal
  playerID : Option String
  _id : Option Nat
  _gameid : Option String
  _player : Option String

/-- A game config object; every field a raw config may omit is an `Option`.
`getMove`, `moveNames` and `processMove` are the fields the normalizer
adds to the processed definition. -/
structure GameConfig where
  name : Option String
  setup : Option (Ctx → JsVal)
  moves : Option (List (String × MoveEntry))
  playerView : Option (JsVal → Ctx → Option String → JsVal)
  plugins : Option (List Plugin)
  phases : Option (List (String × PhaseConfig))
  seed : Option Nat
  flow : Option Flow
  getMove : Option (Ctx → String → Except JsError (Option MoveEntry))
  moveNames : Option (List String)
  processMove : Option (JsVal → MAction → Ctx → Except JsError JsVal)

/-- Modelled from the spec: `FnWrap` (imported by game.js from
src/plugins/main, which is not among the sources) wraps a move or trigger
function through the ordered plugin chain, applying each plugin's optional
`fnWrap` hook in order. -/
def FnWrap (f : MoveFn) (plugins : List Plugin) : MoveFn :=
  plugins.foldl
    (fun acc p =>
      match p.fnWrap with
      | some w => w acc
      | none => acc)
    f

/-- Modelled from the spec: `FlowWithPhases` (imported by game.js from
src/core/flow, which is not among the sources) builds the flow engine for
a config; game.js consults only that the result defines `processGameEvent`
and its `moveMap`, whose keys are strings of the form `phase.move` for
every move a phase declares. -/
def FlowWithPhases (c : GameConfig) : Flow :=
  { processGameEvent := some ()
    moveMap :=
      (c.phases.getD []).foldr
        (fun pc acc =>
          ((pc.2.moves.getD []).map (fun mv => (pc.1 ++ "." ++ mv.1, mv.2))) ++ acc)
        [] }

/-- The default-filling assignments performed on the argument
(game.js lines 101 to 105), as explicit state passing. -/
def applyDefaults (c : GameConfig) : GameConfig :=
  { c with
    name := some (c.name.getD "default")
    setup := some (c.setup.getD (fun _ => JsVal.obj []))
    moves := some (c.moves.getD [])
    playerView := some (c.playerView.getD (fun G _ _ => G))
    plugins := some (c.plugins.getD []) }

/-- The flow assignment of game.js lines 128 to 130: if the config has no
flow, or its flow does not define `processGameEvent`, a flow engine is
built from the (already defaulted) config and assigned in place. -/
def setFlow (c : GameConfig) : GameConfig :=
  match c.flow with
  | some fl =>
    if fl.processGameEvent.isSome then c
    else { c with flow := some (FlowWithPhases c) }
  | none => { c with flow := some (FlowWithPhases c) }

/-- The state of the caller's config object after `Game` returns: on a raw
config, `Game` assigns the defaults and the flow engine onto its argument
in place before building the processed definition. -/
def gameMutatedInput (c : GameConfig) : GameConfig :=
  match c.processMove with
  | some _ => c
  | none => setFlow (applyDefaults c)

/-- The flow object read through `game.flow` (always defined by the time
the closures run). -/
def flowOf (g : GameConfig) : Flow :=
  g.flow.getD { processGameEvent := none, moveMap := [] }

/-- The `getMove` closure of game.js lines 107 to 126, over the mutated
config it captures.  Reading `game.phases[ctx.phase].moves` raises a
TypeError when `ctx.phase` is not a key of the phases table; this is the
`Except.error` case.  When the phase-scoped branch is taken and the key is
absent from the moveMap, the result is `none` (no fallback to the global
table, which is consulted only in the else branch). -/
def getMoveImpl (g : GameConfig) (ctx : Ctx) (name : String) :
    Except JsError (Option MoveEntry) :=
  if ctx.phase = "default" then
    .ok (List.lookup name (g.moves.getD []))
  else
    match g.phases with
    | none => .ok (List.lookup name (g.moves.getD []))
    | some phs =>
      match List.lookup ctx.phase phs with
      | none => .error (JsError.typeError "Cannot read property moves of undefined")
      | some pc =>
        match pc.moves with
        | none => .ok (List.lookup name (g.moves.getD []))
        | some _ => .ok (List.lookup (ctx.phase ++ "." ++ name) (flowOf g).moveMap)

/-- Last `.`-separated segment of a key (`s[s.length - 1]` after split). -/
def lastSegment (s : String) : String :=
  (s.splitOn ".").getLastD ""

/-- Adding an element to the insertion-ordered set of move names
(`Set.add`): appended only when not already present. -/
def insertIfNew (l : List String) (x : String) : List String :=
  if x ∈ l then l else l ++ [x]

/-- The `moveNames` computation of game.js lines 132 to 139: the keys of
the global move table followed by the last segment of every flow moveMap
key, deduplicated in insertion order. -/
def moveNamesOf (g : GameConfig) : List String :=
  let s1 := ((g.moves.getD []).map Prod.fst).foldl insertIfNew []
  (((flowOf g).moveMap.map Prod.fst).map lastSegment).foldl insertIfNew s1

/-- The `processMove` closure of game.js lines 148 to 163: resolve the
move, unwrap an object with a truthy `impl` field, and if a function was
obtained invoke it, wrapped through the plugin chain, on
`G`, `ctx` augmented with the action's `playerID`, and the action's args;
otherwise return `G` unchanged. -/
def processMoveImpl (g : GameConfig) (G : JsVal) (a : MAction) (ctx : Ctx) :
    Except JsError JsVal :=
  match getMoveImpl g ctx a.type with
  | .error e => .error e
  | .ok mv0 =>
    let mv : Option MoveEntry :=
      match mv0 with
      | some (.record r) =>
        match r.impl with
        | some f => some (.fn f)
        | none => some (.record r)
      | x => x
    match mv with
    | some (.fn f) =>
      let ctxWithPlayerID := { ctx with playerID := a.playerID }
      .ok (FnWrap f (g.plugins.getD []) G ctxWithPlayerID a.args)
    | _ => .ok G

/-- The `Game` normalizer (game.js lines 94 to 165).  A config that
already has `processMove` is returned unchanged; otherwise the defaults
and the flow are assigned onto the argument and the processed definition
is returned, whose closures capture the mutated config. -/
def Game (c : GameConfig) : GameConfig :=
  match c.processMove with
  | some _ => c
  | none =>
    let g := setFlow (applyDefaults c)
    { g with
      getMove := some (getMoveImpl g)
      moveNames := some (moveNamesOf g)
      processMove := some (processMoveImpl g) }

/-- The Multiplayer client object: its current game id and player
(multiplayer.js). -/
structure Multiplayer where
  gameid : String
  player : Option String

/-- The redux store state, of which the middleware reads only `_id`. -/
structure StoreState where
  G : JsVal
  _id : Option Nat

/-- The whitelist object of multiplayer.js lines 29 to 32. -/
def whiteListedActions : List (String × Bool) :=
  [("MAKE_MOVE", true), ("END_TURN", true)]

/-- Truthiness of `whiteListedActions[key]` (own-key lookup). -/
def truthyLookup (l : List (String × Bool)) (k : String) : Bool :=
  (List.lookup k l).getD false

/-- The SocketUpdate middleware of multiplayer.js lines 36 to 48.
`getState` is read before `next(action)` runs; `next` stands for the rest
of the dispatch chain, transforming the store state and producing the
inner dispatch result.  The middleware returns the inner result, the
updated store state, and the list of socket emissions. -/
def SocketUpdate {ρ : Type} (m : Multiplayer)
    (next : MAction → StoreState → ρ × StoreState)
    (s : StoreState) (action : MAction) :
    ρ × StoreState × List (String × MAction) :=
  let state := s
  let res := next action s
  if truthyLookup whiteListedActions action.type then
    let tagged := { action with
      _id := state._id
      _gameid := some m.gameid
      _player := m.player }
    (res.1, res.2, [("action", tagged)])
  else
    (res.1, res.2, [])

/-! Basic lemmas about the normalizer's components. -/

theorem Game_of_some (c : GameConfig) (pm : JsVal → MAction → Ctx → Except JsError JsVal)
    (h : c.processMove = some pm) : Game c = c := by
  unfold Game
  rw [h]

theorem Game_of_none (c : GameConfig) (h : c.processMove = none) :
    Game c =
      { setFlow (applyDefaults c) with
        getMove := some (getMoveImpl (setFlow (applyDefaults c)))
        moveNames := some (moveNamesOf (setFlow (applyDefaults c)))
        processMove := some (processMoveImpl (setFlow (applyDefaults c))) } := by
  unfold Game
  rw [h]

theorem setFlow_name (c : GameConfig) : (setFlow c).name = c.name := by
  unfold setFlow
  rcases c.flow with _ | fl
  · rfl
  · dsimp only
    split <;> rfl

theorem setFlow_setup (c : GameConfig) : (setFlow c).setup = c.setup := by
  unfold setFlow
  rcases c.flow with _ | fl
  · rfl
  · dsimp only
    split <;> rfl

theorem setFlow_moves (c : GameConfig) : (setFlow c).moves = c.moves := by
  unfold setFlow
  rcases c.flow with _ | fl
  · rfl
  · dsimp only
    split <;> rfl

theorem setFlow_playerView (c : GameConfig) : (setFlow c).playerView = c.playerView := by
  unfold setFlow
  rcases c.flow with _ | fl
  · rfl
  · dsimp only
    split <;> rfl

theorem setFlow_plugins (c : GameConfig) : (setFlow c).plugins = c.plugins := by
  unfold setFlow
  rcases c.flow with _ | fl
  · rfl
  · dsimp only
    split <;> rfl

theorem setFlow_phases (c : GameConfig) : (setFlow c).phases = c.phases := by
  unfold setFlow
  rcases c.flow with _ | fl
  · rfl
  · dsimp only
    split <;> rfl

theorem setFlow_flow (c : GameConfig) : (setFlow c).flow = some (flowOf (setFlow c)) := by
  unfold setFlow flowOf
  cases hf : c.flow with
  | none => rfl
  | some fl =>
    dsimp only
    split
    · rw [hf]
      rfl
    · rfl

theorem applyDefaults_name (c : GameConfig) :
    (applyDefaults c).name = some (c.name.getD "default") := rfl

theorem applyDefaults_setup (c : GameConfig) :
    (applyDefaults c).setup = some (c.setup.getD (fun _ => JsVal.obj [])) := rfl

theorem applyDefaults_moves (c : GameConfig) :
    (applyDefaults c).moves = some (c.moves.getD []) := rfl

theorem applyDefaults_playerView (c : GameConfig) :
    (applyDefaults c).playerView = some (c.playerView.getD (fun G _ _ => G)) := rfl

theorem applyDefaults_plugins (c : GameConfig) :
    (applyDefaults c).plugins = some (c.plugins.getD []) := rfl

theorem applyDefaults_phases (c : GameConfig) : (applyDefaults c).phases = c.phases := rfl

theorem applyDefaults_flow (c : GameConfig) : (applyDefaults c).flow = c.flow := rfl

/-! Lemmas about `insertIfNew` and its folds. -/

theorem mem_insertIfNew {l : List String} {x y : String} :
    y ∈ insertIfNew l x ↔ y ∈ l ∨ y = x := by
  unfold insertIfNew
  by_cases h : x ∈ l
  · rw [if_pos h]
    constructor
    · exact Or.inl
    · rintro (hy | rfl)
      · exact hy
      · exact h
  · rw [if_neg h]
    simp

theorem mem_foldl_insertIfNew (l acc : List String) (y : String) :
    y ∈ l.foldl insertIfNew acc ↔ y ∈ acc ∨ y ∈ l := by
  induction l generalizing acc with
  | nil => simp
  | cons a t ih =>
    rw [List.foldl_cons, ih, mem_insertIfNew]
    simp [List.mem_cons, or_assoc]

theorem nodup_insertIfNew {l : List String} (x : String) (h : l.Nodup) :
    (insertIfNew l x).Nodup := by
  unfold insertIfNew
  by_cases hx : x ∈ l
  · rwa [if_pos hx]
  · rw [if_neg hx]
    simp [List.nodup_append, h, hx]

theorem nodup_foldl_insertIfNew (l acc : List String) (h : acc.Nodup) :
    (l.foldl insertIfNew acc).Nodup := by
  induction l generalizing acc with
  | nil => exact h
  | cons a t ih => exact ih _ (nodup_insertIfNew a h)

/-! Concrete fixtures used by witnesses and counterexamples. -/

/-- The raw config with every field absent. -/
def cfgBase : GameConfig :=
  { name := none, setup := none, moves := none, playerView := none,
    plugins := none, phases := none, seed := none, flow := none,
    getMove := none, moveNames := none, processMove := none }

/-- A context in the default phase. -/
def baseCtx : Ctx :=
  { numPlayers := 2, playOrder := ["0", "1"], playOrderPos := 0,
    currentPlayer := "0", turn := 1, phase := "default", playerID := none }

/-- The identity move function. -/
def idMoveFn : MoveFn := fun G _ _ => G

/-- A processMove field for an already-processed config fixture. -/
def passThru : JsVal → MAction → Ctx → Except JsError JsVal := fun G _ _ => .ok G

/-- A config that already carries a `processMove` field. -/
def cfgProcessed : GameConfig :=
  { cfgBase with processMove := some passThru }

/-- Whether the config lacks a usable flow, so that `Game` builds and
assigns one (the condition of game.js line 128). -/
def flowAbsentB (c : GameConfig) : Bool :=
  match c.flow with
  | none => true
  | some fl => fl.processGameEvent.isNone

/-- C2: the Game normalizer is idempotent: a config that already defines
`processMove` is returned unchanged, and hence processing twice equals
processing once for every raw config (no double wrapping of moves or
flow). -/
theorem Game_idempotent (c : GameConfig) :
    (c.processMove.isSome = true → Game c = c) ∧ Game (Game c) = Game c := by
  constructor
  · intro h
    obtain ⟨pm, hpm⟩ := Option.isSome_iff_exists.mp h
    exact Game_of_some c pm hpm
  · cases hpm : c.processMove with
    | some pm => rw [Game_of_some c pm hpm, Game_of_some c pm hpm]
    | none =>
      rw [Game_of_none c hpm]
      exact Game_of_some _ _ rfl

/-- C2 witness: a config with `processMove` already present is returned as
is, and reprocessing a processed config is the identity. -/
theorem Game_idempotent_witness :
    Game cfgProcessed = cfgProcessed ∧
      Game (Game cfgProcessed) = Game cfgProcessed :=
  ⟨(Game_idempotent cfgProcessed).1 rfl, (Game_idempotent cfgProcessed).2⟩

theorem setFlow_flow_of_absent (c : GameConfig) (h : flowAbsentB c = true) :
    (setFlow c).flow = some (FlowWithPhases c) := by
  unfold setFlow
  unfold flowAbsentB at h
  cases hf : c.flow with
  | none => rfl
  | some fl =>
    rw [hf] at h
    have hpge : fl.processGameEvent = none := Option.isNone_iff_eq_none.mp h
    simp [hpge]

/-- C9: `Game` mutates the raw config passed to it: for a config lacking
name, setup, moves, playerView, plugins, or a flow with
`processGameEvent`, the default fields and the constructed flow engine
are assigned onto the caller's input object in place, so the input config
is observably changed after the call. -/
theorem Game_mutates_input (c : GameConfig) (hpm : c.processMove = none) :
    (c.name = none → (gameMutatedInput c).name = some "default") ∧
    (c.setup = none → (gameMutatedInput c).setup = some (fun _ => JsVal.obj [])) ∧
    (c.moves = none → (gameMutatedInput c).moves = some []) ∧
    (c.playerView = none → (gameMutatedInput c).playerView = some (fun G _ _ => G)) ∧
    (c.plugins = none → (gameMutatedInput c).plugins = some []) ∧
    (flowAbsentB c = true →
      (gameMutatedInput c).flow = some (FlowWithPhases (applyDefaults c))) ∧
    ((c.name = none ∨ c.setup = none ∨ c.moves = none ∨ c.playerView = none ∨
      c.plugins = none ∨ flowAbsentB c = true) → gameMutatedInput c ≠ c) := by
  have hg : gameMutatedInput c = setFlow (applyDefaults c) := by
    unfold gameMutatedInput
    rw [hpm]
  have hname : c.name = none → (gameMutatedInput c).name = some "default" := by
    intro h
    rw [hg, setFlow_name, applyDefaults_name, h]
    rfl
  have hsetup : c.setup = none →
      (gameMutatedInput c).setup = some (fun _ => JsVal.obj []) := by
    intro h
    rw [hg, setFlow_setup, applyDefaults_setup, h]
    rfl
  have hmoves : c.moves = none → (gameMutatedInput c).moves = some [] := by
    intro h
    rw [hg, setFlow_moves, applyDefaults_moves, h]
    rfl
  have hpv : c.playerView = none →
      (gameMutatedInput c).playerView = some (fun G _ _ => G) := by
    intro h
    rw [hg, setFlow_playerView, applyDefaults_playerView, h]
    rfl
  have hplug : c.plugins = none → (gameMutatedInput c).plugins = some [] := by
    intro h
    rw [hg, setFlow_plugins, applyDefaults_plugins, h]
    rfl
  have hflow : flowAbsentB c = true →
      (gameMutatedInput c).flow = some (FlowWithPhases (applyDefaults c)) := by
    intro h
    rw [hg]
    have hd : flowAbsentB (applyDefaults c) = true := h
    exact setFlow_flow_of_absent (applyDefaults c) hd
  refine ⟨hname, hsetup, hmoves, hpv, hplug, hflow, ?_⟩
  intro hmiss heq
  rcases hmiss with h | h | h | h | h | h
  · have := hname h
    rw [heq, h] at this
    exact Option.noConfusion this
  · have := hsetup h
    rw [heq, h] at this
    exact Option.noConfusion this
  · have := hmoves h
    rw [heq, h] at this
    exact Option.noConfusion this
  · have := hpv h
    rw [heq, h] at this
    exact Option.noConfusion this
  · have := hplug h
    rw [heq, h] at this
    exact Option.noConfusion this
  · have hfl := hflow h
    rw [heq] at hfl
    unfold flowAbsentB at h
    rw [hfl] at h
    simp [FlowWithPhases] at h

/-- C9 witness: the empty raw config is observably mutated by the call. -/
theorem Game_mutates_input_witness :
    (gameMutatedInput cfgBase).name = some "default" ∧
      gameMutatedInput cfgBase ≠ cfgBase := by
  have h := Game_mutates_input cfgBase rfl
  exact ⟨h.1 rfl, h.2.2.2.2.2.2 (Or.inl rfl)⟩

/-- C7: `moveNames` of the processed definition is the duplicate-free
union of the global move keys and the last `.`-separated segment of every
key of the flow engine's moveMap: membership is equivalent to coming from
one of the two sources, and the list has no duplicates. -/
theorem moveNames_union_nodup (c : GameConfig) (hpm : c.processMove = none) :
    ∃ mns fl, (Game c).moveNames = some mns ∧ (Game c).flow = some fl ∧
      (∀ x, x ∈ mns ↔
        (x ∈ (c.moves.getD []).map Prod.fst ∨
          ∃ k, k ∈ fl.moveMap.map Prod.fst ∧ lastSegment k = x)) ∧
      mns.Nodup := by
  rw [Game_of_none c hpm]
  refine ⟨moveNamesOf (setFlow (applyDefaults c)), flowOf (setFlow (applyDefaults c)),
    rfl, ?_, ?_, ?_⟩
  · exact setFlow_flow (applyDefaults c)
  · intro x
    unfold moveNamesOf
    rw [mem_foldl_insertIfNew, mem_foldl_insertIfNew]
    rw [setFlow_moves, applyDefaults_moves]
    constructor
    · rintro ((h0 | hkeys) | hlast)
      · exact absurd h0 (List.not_mem_nil x)
      · exact Or.inl hkeys
      · obtain ⟨k, hk, rfl⟩ := List.mem_map.mp hlast
        exact Or.inr ⟨k, hk, rfl⟩
    · rintro (hkeys | ⟨k, hk, rfl⟩)
      · exact Or.inl (Or.inr hkeys)
      · exact Or.inr (List.mem_map.mpr ⟨k, hk, rfl⟩)
  · unfold moveNamesOf
    exact nodup_foldl_insertIfNew _ _ (nodup_foldl_insertIfNew _ _ List.nodup_nil)

/-- A fixture for the moveNames witness: two global moves and a flow whose
moveMap repeats one of them under a phase prefix and adds a new one. -/
def cfgMoveNames : GameConfig :=
  { cfgBase with
    moves := some [("a", MoveEntry.fn idMoveFn), ("b", MoveEntry.fn idMoveFn)]
    flow := some
      { processGameEvent := some ()
        moveMap := [("p.a", MoveEntry.fn idMoveFn), ("p.c", MoveEntry.fn idMoveFn)] } }

/-- C7 witness: the characterization instantiated at a concrete config. -/
theorem moveNames_union_nodup_witness :
    ∃ mns fl, (Game cfgMoveNames).moveNames = some mns ∧
      (Game cfgMoveNames).flow = some fl ∧
      (∀ x, x ∈ mns ↔
        (x ∈ (cfgMoveNames.moves.getD []).map Prod.fst ∨
          ∃ k, k ∈ fl.moveMap.map Prod.fst ∧ lastSegment k = x)) ∧
      mns.Nodup :=
  moveNames_union_nodup cfgMoveNames rfl

/-- The phase-scoped branch of `getMove` is taken: the current phase is
not `"default"` and that phase exists and declares moves. -/
def phaseScopedTakenB (phases : Option (List (String × PhaseConfig)))
    (phase : String) : Bool :=
  if phase = "default" then false
  else
    match phases with
    | none => false
    | some phs =>
      match List.lookup phase phs with
      | none => false
      | some pc => pc.moves.isSome

/-- The global-table branch of `getMove` is taken: the phase is
`"default"`, or no phases table exists, or the current phase exists but
declares no moves. -/
def globalBranchB (phases : Option (List (String × PhaseConfig)))
    (phase : String) : Bool :=
  if phase = "default" then true
  else
    match phases with
    | none => true
    | some phs =>
      match List.lookup phase phs with
      | none => false
      | some pc => pc.moves.isNone

theorem getMoveImpl_of_phaseScoped (g : GameConfig) (ctx : Ctx) (nm : String)
    (h : phaseScopedTakenB g.phases ctx.phase = true) :
    getMoveImpl g ctx nm =
      .ok (List.lookup (ctx.phase ++ "." ++ nm) (flowOf g).moveMap) := by
  unfold getMoveImpl
  unfold phaseScopedTakenB at h
  by_cases hd : ctx.phase = "default"
  · rw [if_pos hd] at h
    exact absurd h (by simp)
  · rw [if_neg hd] at h
    rw [if_neg hd]
    cases hp : g.phases with
    | none =>
      rw [hp] at h
      exact absurd h (by simp)
    | some phs =>
      rw [hp] at h
      dsimp only at h ⊢
      cases hl : List.lookup ctx.phase phs with
      | none =>
        rw [hl] at h
        exact absurd h (by simp)
      | some pc =>
        rw [hl] at h
        dsimp only at h ⊢
        cases hm : pc.moves with
        | none =>
          rw [hm] at h
          exact absurd h (by simp)
        | some l => rfl

theorem getMoveImpl_of_global (g : GameConfig) (ctx : Ctx) (nm : String)
    (h : globalBranchB g.phases ctx.phase = true) :
    getMoveImpl g ctx nm = .ok (List.lookup nm (g.moves.getD [])) := by
  unfold getMoveImpl
  unfold globalBranchB at h
  by_cases hd : ctx.phase = "default"
  · rw [if_pos hd]
  · rw [if_neg hd] at h
    rw [if_neg hd]
    cases hp : g.phases with
    | none => rfl
    | some phs =>
      rw [hp] at h
      dsimp only at h ⊢
      cases hl : List.lookup ctx.phase phs with
      | none =>
        rw [hl] at h
        exact absurd h (by simp)
      | some pc =>
        rw [hl] at h
        dsimp only at h ⊢
        cases hm : pc.moves with
        | some l =>
          rw [hm] at h
          exact absurd h (by simp)
        | none => rfl

theorem lookup_isSome_of_mem_keys {β : Type} {l : List (String × β)} {a : String}
    (h : a ∈ l.map Prod.fst) : ∃ b, List.lookup a l = some b := by
  induction l with
  | nil => simp at h
  | cons p t ih =>
    cases p with
    | mk k b =>
      rw [List.map_cons, List.mem_cons] at h
      by_cases hpa : a = k
      · subst hpa
        exact ⟨b, by simp [List.lookup]⟩
      · have hmem : a ∈ t.map Prod.fst := by
          rcases h with h | h
          · exact absurd h hpa
          · exact h
        obtain ⟨b2, hb2⟩ := ih hmem
        refine ⟨b2, ?_⟩
        have hne : (a == k) = false := beq_eq_false_iff_ne.mpr hpa
        simpa only [List.lookup, hne] using hb2

/-- C4 (amended): `getMove` resolution with no fallback.  When the
phase-scoped branch is taken (phase not `"default"` and the phase
declares moves), the result is exactly the `"<phase>.<name>"` lookup in
the flow moveMap — null when absent, with no fallback to the global
table.  The global table is consulted exactly when the phase-scoped
condition does not hold (and the phase lookup does not throw), and then
every name present in the global moves resolves non-null. -/
theorem getMove_no_global_fallback (c : GameConfig) (ctx : Ctx) (nm : String)
    (hpm : c.processMove = none) :
    ∃ gm fl, (Game c).getMove = some gm ∧ (Game c).flow = some fl ∧
      (phaseScopedTakenB c.phases ctx.phase = true →
        gm ctx nm = .ok (List.lookup (ctx.phase ++ "." ++ nm) fl.moveMap)) ∧
      (globalBranchB c.phases ctx.phase = true →
        gm ctx nm = .ok (List.lookup nm (c.moves.getD []))) ∧
      (globalBranchB c.phases ctx.phase = true →
        nm ∈ (c.moves.getD []).map Prod.fst →
        ∃ e, gm ctx nm = .ok (some e)) := by
  rw [Game_of_none c hpm]
  have hp : (setFlow (applyDefaults c)).phases = c.phases := by
    rw [setFlow_phases, applyDefaults_phases]
  have hm : (setFlow (applyDefaults c)).moves.getD [] = c.moves.getD [] := by
    rw [setFlow_moves, applyDefaults_moves]
    rfl
  have hglobal : globalBranchB c.phases ctx.phase = true →
      getMoveImpl (setFlow (applyDefaults c)) ctx nm =
        .ok (List.lookup nm (c.moves.getD [])) := by
    intro h
    rw [getMoveImpl_of_global (setFlow (applyDefaults c)) ctx nm (by rw [hp]; exact h), hm]
  refine ⟨getMoveImpl (setFlow (applyDefaults c)), flowOf (setFlow (applyDefaults c)),
    rfl, setFlow_flow (applyDefaults c), ?_, hglobal, ?_⟩
  · intro h
    exact getMoveImpl_of_phaseScoped (setFlow (applyDefaults c)) ctx nm (by rw [hp]; exact h)
  · intro h hmem
    obtain ⟨e, he⟩ := lookup_isSome_of_mem_keys hmem
    exact ⟨e, by rw [hglobal h, he]⟩

/-- A config whose phase `A` declares moves, while the flow moveMap lacks
the key `A.m` and the global table has `m`. -/
def cfgNoFallback : GameConfig :=
  { cfgBase with
    moves := some [("m", MoveEntry.fn idMoveFn)]
    phases := some [("A", { moves := some [("m", MoveEntry.fn idMoveFn)] })]
    flow := some { processGameEvent := some (), moveMap := [] } }

/-- A context sitting in phase `A`. -/
def ctxPhaseA : Ctx := { baseCtx with phase := "A" }

/-- C4 counterexample: with the phase-scoped branch taken and the
`"A.m"` key absent from the flow moveMap, `getMove` returns null even
though `m` is present in the global move table — there is no fallback. -/
theorem getMove_fallback_refuted :
    ∃ gm, (Game cfgNoFallback).getMove = some gm ∧
      gm ctxPhaseA "m" = .ok none ∧
      "m" ∈ (cfgNoFallback.moves.getD []).map Prod.fst :=
  ⟨getMoveImpl (setFlow (applyDefaults cfgNoFallback)), rfl, rfl, by decide⟩

/-- A config whose phase `A` declares moves and whose flow moveMap holds
the key `A.m`. -/
def cfgPhaseScoped : GameConfig :=
  { cfgBase with
    moves := some [("m", MoveEntry.fn idMoveFn)]
    phases := some [("A", { moves := some [("m", MoveEntry.fn idMoveFn)] })]
    flow := some
      { processGameEvent := some ()
        moveMap := [("A.m", MoveEntry.fn idMoveFn)] } }

/-- A context sitting in phase `A` for the witness fixture. -/
def ctxScoped : Ctx := { baseCtx with phase := "A" }

/-- C4 witness: the amended resolution rule instantiated at a concrete
phase-scoped lookup. -/
theorem getMove_no_global_fallback_witness :
    ∃ gm fl, (Game cfgPhaseScoped).getMove = some gm ∧
      (Game cfgPhaseScoped).flow = some fl ∧
      gm ctxScoped "m" =
        .ok (List.lookup (ctxScoped.phase ++ "." ++ "m") fl.moveMap) := by
  obtain ⟨gm, fl, h1, h2, h3, h4, h5⟩ :=
    getMove_no_global_fallback cfgPhaseScoped ctxScoped "m" rfl
  exact ⟨gm, fl, h1, h2, h3 (by decide)⟩

/-- A config whose phases table has a `lobby` phase only. -/
def cfgLobby : GameConfig :=
  { cfgBase with
    moves := some [("anyMove", MoveEntry.fn idMoveFn)]
    phases := some [("lobby", { moves := none })] }

/-- A context sitting in a phase that is not a key of `cfgLobby.phases`. -/
def ctxPlay : Ctx := { baseCtx with phase := "play" }

/-- C3 (code bug evaluation): `getMove` of the processed definition is not
total — at a context whose phase is not `"default"` and not a key of the
phases table, reading `game.phases[ctx.phase].moves` raises a TypeError
instead of returning null. -/
theorem getMove_raises_on_unlisted_phase :
    ∃ gm, (Game cfgLobby).getMove = some gm ∧
      gm ctxPlay "anyMove" =
        .error (JsError.typeError "Cannot read property moves of undefined") :=
  ⟨getMoveImpl (setFlow (applyDefaults cfgLobby)), rfl, rfl⟩

/-- A config with an empty phases table (and nothing else). -/
def cfgEmptyPhases : GameConfig := { cfgBase with phases := some [] }

/-- A context sitting in a phase absent from the empty phases table. -/
def ctxCombat : Ctx := { baseCtx with phase := "combat" }

/-- An action whose type matches no move. -/
def actUnknown : MAction :=
  { type := "unknownMove", args := [], playerID := none,
    _id := none, _gameid := none, _player := none }

/-- C1 (code bug evaluation): an unresolvable move is not always a silent
no-op — when the context's phase is missing from the phases table,
`processMove` raises the TypeError from `getMove` instead of returning
`G` unchanged. -/
theorem processMove_raises_on_unlisted_phase :
    ∃ pm, (Game cfgEmptyPhases).processMove = some pm ∧
      pm (JsVal.num 1) actUnknown ctxCombat =
        .error (JsError.typeError "Cannot read property moves of undefined") :=
  ⟨processMoveImpl (setFlow (applyDefaults cfgEmptyPhases)), rfl, rfl⟩

/-- A move function with an observable result. -/
def takeMoveFn : MoveFn := fun _ _ _ => JsVal.num 7

/-- A config whose only move is a long-form record with a `move` field,
as the repository's `LongFormMove` declaration describes. -/
def cfgLongForm : GameConfig :=
  { cfgBase with
    moves := some [("take",
      MoveEntry.record
        { move := some takeMoveFn, impl := none, redact := none,
          client := none, undoable := none })] }

/-- The action invoking the long-form move. -/
def actTake : MAction :=
  { type := "take", args := [], playerID := some "0",
    _id := none, _gameid := none, _player := none }

/-- C5 (code bug evaluation): a long-form move record with a `move` field
is not unwrapped — `processMove` reads only an `impl` field, so the
record is treated as unresolvable and `G` is returned unchanged, while
invoking the declared function (wrapped through the empty plugin chain)
would have produced a different `G`. -/
theorem processMove_ignores_longform_move_field :
    ∃ pm, (Game cfgLongForm).processMove = some pm ∧
      pm (JsVal.num 0) actTake baseCtx = .ok (JsVal.num 0) ∧
      FnWrap takeMoveFn [] (JsVal.num 0)
        { baseCtx with playerID := actTake.playerID } actTake.args = JsVal.num 7 :=
  ⟨processMoveImpl (setFlow (applyDefaults cfgLongForm)), rfl, rfl, rfl⟩

/-- The move-function resolution performed inside `processMove`:
`getMove` followed by the unwrap of a truthy `impl` field, yielding the
function that will be invoked when one is obtained. -/
def resolveFn (g : GameConfig) (ctx : Ctx) (name : String) : Option MoveFn :=
  match getMoveImpl g ctx name with
  | .ok (some (.fn f)) => some f
  | .ok (some (.record r)) => r.impl
  | _ => none

/-- C6: when the action's type resolves to a move function, `processMove`
invokes that function wrapped through the ordered plugin chain on the
argument list `G`, `ctx` with `playerID` replaced by the action's
`playerID` (all other fields unchanged), and the action's args; the input
context value is not changed (the augmented context is a copy). -/
theorem processMove_invokes_wrapped_function (c : GameConfig) (G : JsVal)
    (a : MAction) (ctx : Ctx) (f : MoveFn)
    (hpm : c.processMove = none)
    (hres : resolveFn (setFlow (applyDefaults c)) ctx a.type = some f) :
    ∃ pm, (Game c).processMove = some pm ∧
      pm G a ctx =
        .ok (FnWrap f (c.plugins.getD []) G
          { ctx with playerID := a.playerID } a.args) := by
  rw [Game_of_none c hpm]
  refine ⟨processMoveImpl (setFlow (applyDefaults c)), rfl, ?_⟩
  have hplug : (setFlow (applyDefaults c)).plugins.getD [] = c.plugins.getD [] := by
    rw [setFlow_plugins, applyDefaults_plugins]
    rfl
  unfold processMoveImpl
  unfold resolveFn at hres
  cases hg : getMoveImpl (setFlow (applyDefaults c)) ctx a.type with
  | error e =>
    rw [hg] at hres
    exact absurd hres (by simp)
  | ok mv0 =>
    rw [hg] at hres
    cases mv0 with
    | none => exact absurd hres (by simp)
    | some me =>
      cases me with
      | fn f2 =>
        have hf : f2 = f := Option.some.inj hres
        subst hf
        dsimp only
        rw [hplug]
      | record r =>
        have hr : r.impl = some f := hres
        dsimp only
        rw [hr]
        dsimp only
        rw [hplug]

/-- A plugin whose wrapper tags the wrapped function's result. -/
def tagPlugin : Plugin :=
  { fnWrap := some (fun f => fun G ctx args => JsVal.arr [f G ctx args]) }

/-- A config with one global move and one plugin. -/
def cfgWrap : GameConfig :=
  { cfgBase with
    moves := some [("play7", MoveEntry.fn takeMoveFn)]
    plugins := some [tagPlugin] }

/-- The action invoking the wrapped move with one argument. -/
def actPlay : MAction :=
  { type := "play7", args := [JsVal.num 3], playerID := some "1",
    _id := none, _gameid := none, _player := none }

/-- C6 witness: the dispatch equation instantiated at a concrete config,
move and action. -/
theorem processMove_invokes_wrapped_function_witness :
    ∃ pm, (Game cfgWrap).processMove = some pm ∧
      pm (JsVal.num 0) actPlay baseCtx =
        .ok (FnWrap takeMoveFn (cfgWrap.plugins.getD []) (JsVal.num 0)
          { baseCtx with playerID := actPlay.playerID } actPlay.args) :=
  processMove_invokes_wrapped_function cfgWrap (JsVal.num 0) actPlay baseCtx
    takeMoveFn rfl rfl

/-! The multiplayer middleware. -/

theorem truthyLookup_whiteListed (t : String) :
    truthyLookup whiteListedActions t = true ↔
      (t = "MAKE_MOVE" ∨ t = "END_TURN") := by
  unfold truthyLookup whiteListedActions
  by_cases h1 : t = "MAKE_MOVE"
  · subst h1
    simp [List.lookup]
  · by_cases h2 : t = "END_TURN"
    · subst h2
      simp [List.lookup]
    · have hb1 : (t == "MAKE_MOVE") = false := beq_eq_false_iff_ne.mpr h1
      have hb2 : (t == "END_TURN") = false := beq_eq_false_iff_ne.mpr h2
      simp [List.lookup, hb1, hb2, h1, h2]

theorem socketUpdate_eq {ρ : Type} (m : Multiplayer)
    (next : MAction → StoreState → ρ × StoreState) (s : StoreState) (a : MAction) :
    SocketUpdate m next s a =
      ((next a s).1, (next a s).2,
        if truthyLookup whiteListedActions a.type then
          [("action",
            { a with _id := s._id, _gameid := some m.gameid, _player := m.player })]
        else []) := by
  unfold SocketUpdate
  by_cases h : truthyLookup whiteListedActions a.type = true
  · rw [if_pos h, if_pos h]
  · rw [if_neg h, if_neg h]

/-- C8: the middleware emits an `action` message on the socket exactly
when the dispatched action's type is MAKE_MOVE or END_TURN; the emitted
action carries `_gameid` and `_player` from the Multiplayer instance; a
non-whitelisted action produces no emission while the action is still
forwarded to the reducer (the store update and inner result are those of
the rest of the chain in every case). -/
theorem socketUpdate_emits_iff_whitelisted {ρ : Type} (m : Multiplayer)
    (next : MAction → StoreState → ρ × StoreState) (s : StoreState) (a : MAction) :
    ((SocketUpdate m next s a).2.2 ≠ [] ↔
      (a.type = "MAKE_MOVE" ∨ a.type = "END_TURN")) ∧
    (SocketUpdate m next s a).2.2 =
      (if a.type = "MAKE_MOVE" ∨ a.type = "END_TURN" then
        [("action",
          { a with _id := s._id, _gameid := some m.gameid, _player := m.player })]
      else []) ∧
    (SocketUpdate m next s a).1 = (next a s).1 ∧
    (SocketUpdate m next s a).2.1 = (next a s).2 := by
  have he := socketUpdate_eq m next s a
  by_cases hw : a.type = "MAKE_MOVE" ∨ a.type = "END_TURN"
  · have hb : truthyLookup whiteListedActions a.type = true :=
      (truthyLookup_whiteListed a.type).mpr hw
    rw [he]
    dsimp only
    rw [if_pos hb, if_pos hw]
    exact ⟨⟨fun _ => hw, fun _ => by simp⟩, rfl, rfl, rfl⟩
  · have hb : ¬truthyLookup whiteListedActions a.type = true :=
      fun hc => hw ((truthyLookup_whiteListed a.type).mp hc)
    rw [he]
    dsimp only
    rw [if_neg hb, if_neg hw]
    exact ⟨⟨fun hne => absurd rfl hne, fun hwc => absurd hwc hw⟩, rfl, rfl, rfl⟩

/-- A Multiplayer instance with a set game id and player. -/
def mClient : Multiplayer := { gameid := "game1", player := some "0" }

/-- A store state whose version counter is 5. -/
def storeS5 : StoreState := { G := JsVal.null, _id := some 5 }

/-- An inner dispatch that bumps the version counter and returns 7. -/
def nextBump : MAction → StoreState → Nat × StoreState :=
  fun _ s => (7, { s with _id := some ((s._id.getD 0) + 1) })

/-- A whitelisted MAKE_MOVE action. -/
def actMakeMove : MAction :=
  { type := "MAKE_MOVE", args := [], playerID := some "0",
    _id := none, _gameid := none, _player := none }

/-- A non-whitelisted action. -/
def actRestore : MAction :=
  { type := "RESTORE", args := [], playerID := none,
    _id := none, _gameid := none, _player := none }

/-- C8 witness: a MAKE_MOVE dispatch emits the tagged action and a
non-whitelisted dispatch emits nothing. -/
theorem socketUpdate_emits_iff_whitelisted_witness :
    (SocketUpdate mClient nextBump storeS5 actMakeMove).2.2 =
      [("action",
        { actMakeMove with _id := some 5, _gameid := some "game1", _player := some "0" })] ∧
    (SocketUpdate mClient nextBump storeS5 actRestore).2.2 = [] := by
  constructor
  · have h := (socketUpdate_emits_iff_whitelisted mClient nextBump storeS5 actMakeMove).2.1
    exact h.trans rfl
  · have h := (socketUpdate_emits_iff_whitelisted mClient nextBump storeS5 actRestore).2.1
    exact h.trans rfl

/-- C10: for every whitelisted action, the `_id` tag on the emitted
message is the `_id` of the store state captured before `next(action)`
ran, so it identifies the predecessor state the action was applied to;
and the middleware passes the inner dispatch result and the store update
through unchanged. -/
theorem socketUpdate_id_from_prestate {ρ : Type} (m : Multiplayer)
    (next : MAction → StoreState → ρ × StoreState) (s : StoreState) (a : MAction)
    (hw : truthyLookup whiteListedActions a.type = true) :
    (SocketUpdate m next s a).2.2 =
      [("action",
        { a with _id := s._id, _gameid := some m.gameid, _player := m.player })] ∧
    (SocketUpdate m next s a).1 = (next a s).1 ∧
    (SocketUpdate m next s a).2.1 = (next a s).2 := by
  rw [socketUpdate_eq]
  dsimp only
  rw [if_pos hw]
  exact ⟨rfl, rfl, rfl⟩

/-- A second Multiplayer instance for the C10 fixture. -/
def mServer : Multiplayer := { gameid := "game2", player := some "1" }

/-- A store state whose version counter is 9. -/
def storeS9 : StoreState := { G := JsVal.null, _id := some 9 }

/-- An inner dispatch that bumps the version counter and returns 3. -/
def nextBump2 : MAction → StoreState → Nat × StoreState :=
  fun _ s => (3, { s with _id := some ((s._id.getD 0) + 1) })

/-- A whitelisted END_TURN action. -/
def actEndTurn : MAction :=
  { type := "END_TURN", args := [], playerID := some "1",
    _id := none, _gameid := none, _player := none }

/-- C10 witness: the emitted `_id` is the pre-dispatch counter 9 even
though the store update advanced the counter to 10. -/
theorem socketUpdate_id_from_prestate_witness :
    (SocketUpdate mServer nextBump2 storeS9 actEndTurn).2.2 =
      [("action",
        { actEndTurn with _id := some 9, _gameid := some "game2", _player := some "1" })] ∧
    (SocketUpdate mServer nextBump2 storeS9 actEndTurn).2.1._id = some 10 := by
  have h := socketUpdate_id_from_prestate mServer nextBump2 storeS9 actEndTurn rfl
  refine ⟨h.1, ?_⟩
  rw [h.2.2]
  rfl

end Boardgame
